import Mathlib

/-!
Verification of the task-tracking backend: a shallow embedding of the
shared schema (shared/schema.ts), the storage layer (server/storage.ts,
class DatabaseStorage) and the Express route handlers (server/routes.ts),
together with theorems about the task lifecycle and the retrieval-ordering
contract.

Modelling conventions:
* timestamps are abstracted as naturals (`now` is passed explicitly where
  the code calls `new Date()` / relies on the column's `defaultNow()`);
* the database table is a list of rows in insertion order plus the value
  the `serial` id sequence will hand out next;
* `ORDER BY asc(completed), desc(createdAt)` is modelled as a stable
  insertion sort on that two-part key (SQL leaves the order of ties
  unspecified; any sort realizing the key is a faithful model);
* JavaScript values that reach the PATCH handler untyped are modelled by
  the inductive `JVal`, with ECMAScript truthiness and `parseInt`
  semantics spelled out explicitly.
-/

namespace TaskApp

/-- A row of the `tasks` table (shared/schema.ts): `id serial primary key`,
`title text not null` (TEXT: no length constraint at the database level),
`completed boolean not null default false`, `created_at timestamp not null
defaultNow()`, `completed_at timestamp` (nullable). -/
structure Task where
  id : Int
  title : String
  completed : Bool
  createdAt : Nat
  completedAt : Option Nat
  deriving DecidableEq

/-- The persistent state behind `DatabaseStorage`: the rows of the `tasks`
table in insertion order, and the next value of the `id` serial sequence
(PostgreSQL sequences are monotone and never reuse a value). -/
structure Store where
  nextId : Int
  rows : List Task
  deriving DecidableEq

/-- Boolean form of the `getAllTasks` ORDER BY key
`asc(tasks.completed), desc(tasks.createdAt)`: first by `completed`
ascending (`false` before `true`), then by `createdAt` descending. -/
def taskLeB (a b : Task) : Bool :=
  if a.completed == b.completed then decide (b.createdAt ≤ a.createdAt)
  else !a.completed

/-- Propositional form of the ORDER BY key, used by the sort. -/
def taskLe (a b : Task) : Prop := taskLeB a b = true

instance : DecidableRel taskLe := fun a b =>
  inferInstanceAs (Decidable (taskLeB a b = true))

/-- The two-key order of the spec, written out the way the spec states it:
pending strictly before completed, and within one completion group the
newer task (larger `createdAt`) first. -/
def taskOrdered (a b : Task) : Prop :=
  (a.completed = false ∧ b.completed = true) ∨
  (a.completed = b.completed ∧ b.createdAt ≤ a.createdAt)

instance : IsTotal Task taskLe :=
  ⟨by
    intro a b
    cases ha : a.completed <;> cases hb : b.completed <;>
      simp [taskLe, taskLeB, ha, hb] <;> omega⟩

instance : IsTrans Task taskLe :=
  ⟨by
    intro a b c
    cases ha : a.completed <;> cases hb : b.completed <;> cases hc : c.completed <;>
      simp [taskLe, taskLeB, ha, hb, hc] <;> omega⟩

/-- `DatabaseStorage.getAllTasks`: `select().from(tasks).orderBy(
asc(tasks.completed), desc(tasks.createdAt))`. -/
def getAllTasks (s : Store) : List Task :=
  List.insertionSort taskLe s.rows

/-- `DatabaseStorage.createTask`: `insert(tasks).values(task).returning()`.
The database fills the omitted columns from their defaults: a fresh serial
`id`, `completed = false`, `createdAt = now`, `completedAt = null`. -/
def createTask (s : Store) (title : String) (now : Nat) : Task × Store :=
  let t : Task := ⟨s.nextId, title, false, now, none⟩
  (t, ⟨s.nextId + 1, s.rows ++ [t]⟩)

/-- The update object the PATCH handler hands to `updateTask` once its
fields have the column types (`completed boolean`, `completed_at`
nullable timestamp). A `none` field is absent from the object and leaves
the column untouched. -/
structure UpdatePayload where
  completed : Option Bool
  completedAt : Option (Option Nat)
  deriving DecidableEq

/-- Effect of `update(tasks).set(u)` on one row: every column present in
the set object is overwritten with the supplied value, the others keep
their value. -/
def applyUpdates (r : Task) (u : UpdatePayload) : Task :=
  ⟨r.id, r.title, u.completed.getD r.completed, r.createdAt,
   u.completedAt.getD r.completedAt⟩

/-- `DatabaseStorage.updateTask`: `update(tasks).set(updates)
.where(eq(tasks.id, id)).returning()`, then `[updatedTask]` takes the
first returned row and `updatedTask || undefined` turns a missing row
into `undefined` (here `none`). -/
def updateTask (s : Store) (id : Int) (u : UpdatePayload) :
    Option Task × Store :=
  let returned := (s.rows.filter fun r => r.id == id).map fun r => applyUpdates r u
  (returned.head?,
   ⟨s.nextId, s.rows.map fun r => if r.id == id then applyUpdates r u else r⟩)

/-- `DatabaseStorage.deleteTask`: `delete(tasks).where(eq(tasks.id, id))
.returning()`, then `result.length > 0`. -/
def deleteTask (s : Store) (id : Int) : Bool × Store :=
  let deleted := s.rows.filter fun r => r.id == id
  (decide (0 < deleted.length), ⟨s.nextId, s.rows.filter fun r => !(r.id == id)⟩)

/-- A JSON-ish JavaScript value as it reaches the untyped parts of the
handlers (`req.body.completed` is typed `any`). `undefined` is modelled
by `Option JVal` at the use sites, since the handler distinguishes it
with `!== undefined`. -/
inductive JVal where
  | jnull
  | jbool (b : Bool)
  | jnum (n : Int)
  | jstr (s : String)
  deriving DecidableEq

/-- ECMAScript truthiness of a `JVal` (ToBoolean). -/
def truthy : JVal → Bool
  | .jnull => false
  | .jbool b => b
  | .jnum n => !(n == 0)
  | .jstr s => !(s == "")

/-- JavaScript WhiteSpace / LineTerminator characters stripped by
`parseInt` (space, tab, line feed, carriage return, vertical tab, form
feed, no-break space). -/
def isWhitespaceJS (c : Char) : Bool :=
  c == ' ' || c == '\t' || c == '\n' || c == '\r' ||
  c == Char.ofNat 11 || c == Char.ofNat 12 || c == Char.ofNat 160

/-- Value of `c` as a digit in base `radix` (ECMAScript: `0`-`9`,
`a`-`z`, `A`-`Z`), or `none` when `c` is no digit of that base. -/
def digitVal (radix : Nat) (c : Char) : Option Nat :=
  let v : Nat :=
    if '0' ≤ c ∧ c ≤ '9' then c.toNat - '0'.toNat
    else if 'a' ≤ c ∧ c ≤ 'z' then c.toNat - 'a'.toNat + 10
    else if 'A' ≤ c ∧ c ≤ 'Z' then c.toNat - 'A'.toNat + 10
    else 99
  if v < radix then some v else none

/-- Longest prefix of base-`radix` digits, accumulated left to right;
`none` when no digit at all was seen (`parseInt` then returns `NaN`). -/
def takeDigits (radix : Nat) : List Char → Nat → Bool → Option Nat
  | [], acc, seen => if seen then some acc else none
  | c :: rest, acc, seen =>
    match digitVal radix c with
    | some v => takeDigits radix rest (acc * radix + v) true
    | none => if seen then some acc else none

/-- Optional leading sign (ECMAScript `parseInt` step: a leading `-`
makes the result negative, a leading `+` is skipped). -/
def stripSign (cs : List Char) : Int × List Char :=
  match cs with
  | c :: rest =>
    if c = '-' then (-1, rest)
    else if c = '+' then (1, rest)
    else (1, cs)
  | [] => (1, [])

/-- Radix detection of `parseInt` when no radix argument is given: a
leading `0x` or `0X` selects base 16 and is consumed, otherwise base 10. -/
def stripRadixTag (cs : List Char) : Nat × List Char :=
  match cs with
  | c0 :: c1 :: rest =>
    if c0 = '0' ∧ (c1 = 'x' ∨ c1 = 'X') then (16, rest) else (10, cs)
  | _ => (10, cs)

/-- ECMAScript `parseInt(s)` with no radix argument, as called by the
PATCH and DELETE handlers on `req.params.id`; `none` is `NaN`. -/
def parseIntJS (s : String) : Option Int :=
  let cs := s.toList.dropWhile isWhitespaceJS
  let sgn := stripSign cs
  let rad := stripRadixTag sgn.2
  (takeDigits rad.1 rad.2 0 false).map fun n => sgn.1 * (n : Int)

/-- Numeric value of the maximal leading run of decimal digits of `s`
(`none` when `s` does not start with a decimal digit). -/
def decDigitsVal (s : String) : Option Nat :=
  takeDigits 10 s.toList 0 false

/-- Validation performed by `insertTaskSchema.parse(req.body)` in the POST
handler. `insertTaskSchema` is `createInsertSchema(tasks).pick({title:
true})`; for the non-null TEXT column `title` drizzle-zod produces a bare
`z.string()`, so the parse succeeds on any string value of `title`
whatsoever (no minimum and no maximum length) and throws a `ZodError`
exactly when `title` is missing or not a string. -/
def insertTaskParse (body : List (String × JVal)) : Option String :=
  match (body.lookup "title") with
  | some (.jstr s) => some s
  | _ => none

/-- Outcome of `POST /api/tasks`: 201 with the created task, or 400 with
the zod error detail. -/
inductive PostResp where
  | created (t : Task)
  | badRequest
  deriving DecidableEq

/-- The `POST /api/tasks` handler: validate the body against
`insertTaskSchema`; on success insert via `storage.createTask` and answer
201 with the new row, on a `ZodError` answer 400 without touching the
store. -/
def postHandler (s : Store) (body : List (String × JVal)) (now : Nat) :
    PostResp × Store :=
  match insertTaskParse body with
  | some title =>
    let r := createTask s title now
    (.created r.1, r.2)
  | none => (.badRequest, s)

/-- The raw `updates` object the PATCH handler builds before calling the
store: the handler is untyped there (`const updates: any = {}`), so the
`completed` field can carry any JavaScript value. -/
structure RawUpdates where
  completed : Option JVal
  completedAt : Option (Option Nat)
  deriving DecidableEq

/-- Construction of the `updates` object in the PATCH handler: start from
`{}`; only when `req.body.completed !== undefined` set
`updates.completed = req.body.completed` verbatim and
`updates.completedAt = req.body.completed ? new Date() : null`. -/
def buildPatchUpdates (bodyCompleted : Option JVal) (now : Nat) : RawUpdates :=
  match bodyCompleted with
  | none => ⟨none, none⟩
  | some v => ⟨some v, some (if truthy v then some now else none)⟩

/-- What the `PATCH /api/tasks/:id` handler does with a request before the
store answers: either reject the id with 400 (`parseInt` returned `NaN`),
or call `storage.updateTask(id, updates)` with the id `parseInt` produced
and the `updates` object built by `buildPatchUpdates`. -/
inductive PatchOutcome where
  | badId
  | toStore (id : Int) (u : RawUpdates)
  deriving DecidableEq

/-- The body-handling part of the `PATCH /api/tasks/:id` handler, kept at
the JavaScript level of typing: no schema is applied to the body, the
only 400 comes from the id check. -/
def patchHandlerRaw (idStr : String) (bodyCompleted : Option JVal)
    (now : Nat) : PatchOutcome :=
  match parseIntJS idStr with
  | none => .badId
  | some id => .toStore id (buildPatchUpdates bodyCompleted now)

/-- Outcome of `PATCH /api/tasks/:id`: 400 invalid id, 404 unknown id,
or 200 with the updated task. -/
inductive PatchResp where
  | badRequest
  | notFound
  | ok (t : Task)
  deriving DecidableEq

/-- The task carried by a 200 PATCH response, if any. -/
def PatchResp.body : PatchResp → Option Task
  | .ok t => some t
  | _ => none

/-- The full `PATCH /api/tasks/:id` handler for a request whose body
carries a boolean `completed` (the shape the client sends): parse the id
with `parseInt` and answer 400 on `NaN`; otherwise build the updates
object (`completed = c`, `completedAt = c ? new Date() : null`) and call
`storage.updateTask`; answer 404 when the store returns no row, else 200
with the updated row. -/
def patchHandler (s : Store) (idStr : String) (c : Bool) (now : Nat) :
    PatchResp × Store :=
  match parseIntJS idStr with
  | none => (.badRequest, s)
  | some id =>
    let u : UpdatePayload := ⟨some c, some (if c then some now else none)⟩
    let r := updateTask s id u
    match r.1 with
    | none => (.notFound, r.2)
    | some t => (.ok t, r.2)

/-- Outcome of `DELETE /api/tasks/:id`: 400 invalid id, 404 unknown id,
or 204 with an empty body (the handler ends with `res.status(204).send()`). -/
inductive DeleteResp where
  | badRequest
  | notFound
  | noContent
  deriving DecidableEq

/-- The `DELETE /api/tasks/:id` handler: parse the id with `parseInt` and
answer 400 on `NaN` without calling the store; otherwise call
`storage.deleteTask` and answer 404 when it returns `false`, else 204
with an empty body. -/
def deleteHandler (s : Store) (idStr : String) : DeleteResp × Store :=
  match parseIntJS idStr with
  | none => (.badRequest, s)
  | some id =>
    let r := deleteTask s id
    if r.1 then (.noContent, r.2) else (.notFound, r.2)

/-- The lifecycle invariant of the spec: a task is completed exactly when
its completion timestamp is present. -/
def Inv (s : Store) : Prop :=
  ∀ t ∈ s.rows, t.completed = true ↔ t.completedAt ≠ none

instance (s : Store) : Decidable (Inv s) := by
  unfold Inv; infer_instance

end TaskApp

namespace TaskApp

theorem taskLe_iff_taskOrdered (a b : Task) : taskLe a b ↔ taskOrdered a b := by
  cases ha : a.completed <;> cases hb : b.completed <;>
    simp [taskLe, taskLeB, taskOrdered, ha, hb]

theorem updateTask_rows (s : Store) (id : Int) (u : UpdatePayload) :
    (updateTask s id u).2.rows
      = s.rows.map fun r => if r.id == id then applyUpdates r u else r := rfl

theorem patchHandler_of_badId (s : Store) (idStr : String) (c : Bool) (now : Nat)
    (hp : parseIntJS idStr = none) :
    patchHandler s idStr c now = (.badRequest, s) := by
  simp [patchHandler, hp]

theorem patchHandler_snd (s : Store) (idStr : String) (c : Bool) (now : Nat)
    (id : Int) (hp : parseIntJS idStr = some id) :
    (patchHandler s idStr c now).2
      = (updateTask s id ⟨some c, some (if c then some now else none)⟩).2 := by
  cases hu : (updateTask s id ⟨some c, some (if c then some now else none)⟩).1 <;>
    simp [patchHandler, hp, hu]

theorem patchHandler_fst (s : Store) (idStr : String) (c : Bool) (now : Nat)
    (id : Int) (hp : parseIntJS idStr = some id) :
    (patchHandler s idStr c now).1
      = ((updateTask s id ⟨some c, some (if c then some now else none)⟩).1.elim
          PatchResp.notFound PatchResp.ok) := by
  cases hu : (updateTask s id ⟨some c, some (if c then some now else none)⟩).1 <;>
    simp [patchHandler, hp, hu]

theorem updateTask_fst_mem (s : Store) (id : Int) (u : UpdatePayload) (t : Task)
    (h : (updateTask s id u).1 = some t) :
    ∃ r ∈ s.rows, (r.id == id) = true ∧ t = applyUpdates r u := by
  unfold updateTask at h
  cases hf : s.rows.filter (fun r => r.id == id) with
  | nil => rw [hf] at h; simp at h
  | cons a as =>
    rw [hf] at h
    simp at h
    have ha : a ∈ s.rows.filter (fun r => r.id == id) := by
      rw [hf]; exact List.mem_cons_self a as
    rw [List.mem_filter] at ha
    exact ⟨a, ha.1, ha.2, h.symm⟩

/-- Claim C1: the completed/completedAt invariant holds after every create
and setCompletion: a freshly created task has `completed = false` and
`completedAt` absent, creating preserves the invariant, a PATCH preserves
the invariant, and the task a PATCH returns has `completed = c` with
`completedAt` a timestamp exactly when `c` is true and null exactly when
`c` is false. -/
theorem c1_completion_invariant :
    ∀ (s : Store) (title idStr : String) (c : Bool) (now : Nat), Inv s →
      ((createTask s title now).1.completed = false
        ∧ (createTask s title now).1.completedAt = none
        ∧ Inv (createTask s title now).2)
      ∧ (Inv (patchHandler s idStr c now).2
        ∧ ∀ t, (patchHandler s idStr c now).1 = .ok t →
            t.completed = c ∧ t.completedAt = (if c then some now else none)) := by
  intro s title idStr c now hInv
  refine ⟨⟨rfl, rfl, ?_⟩, ?_, ?_⟩
  · intro t ht
    simp [createTask] at ht
    rcases ht with ht | ht
    · exact hInv t ht
    · subst ht; simp
  · cases hp : parseIntJS idStr with
    | none => rw [patchHandler_of_badId s idStr c now hp]; exact hInv
    | some id =>
      rw [patchHandler_snd s idStr c now id hp]
      intro t ht
      rw [updateTask_rows, List.mem_map] at ht
      obtain ⟨r, hr, hrt⟩ := ht
      by_cases hid : (r.id == id) = true
      · rw [if_pos hid] at hrt
        subst hrt
        cases c <;> simp [applyUpdates]
      · rw [if_neg hid] at hrt
        subst hrt
        exact hInv r hr
  · intro t ht
    cases hp : parseIntJS idStr with
    | none =>
      rw [patchHandler_of_badId s idStr c now hp] at ht
      simp at ht
    | some id =>
      rw [patchHandler_fst s idStr c now id hp] at ht
      cases hu : (updateTask s id ⟨some c, some (if c then some now else none)⟩).1 with
      | none => rw [hu] at ht; simp at ht
      | some a =>
        rw [hu] at ht
        simp at ht
        subst ht
        obtain ⟨r, hr, hid, hta⟩ := updateTask_fst_mem s id _ a hu
        subst hta
        cases c <;> simp [applyUpdates]

/-- Concrete instantiation of the C1 theorem on a one-task store. -/
theorem c1_completion_invariant_witness :
    Inv ⟨2, [⟨1, "Buy milk", false, 0, none⟩]⟩
    ∧ Inv (patchHandler ⟨2, [⟨1, "Buy milk", false, 0, none⟩]⟩ "1" true 6).2 :=
  ⟨by decide,
   (c1_completion_invariant ⟨2, [⟨1, "Buy milk", false, 0, none⟩]⟩ "x" "1" true 6
     (by decide)).2.1⟩

/-- Claim C2: `list()` returns exactly the stored (non-deleted) tasks,
ordered pending-first and newest-first within each completion group, and
on the spec's three-task example it returns `[C, A, B]`. -/
theorem c2_list_ordering :
    (∀ s : Store, (getAllTasks s).Perm s.rows ∧ (getAllTasks s).Pairwise taskOrdered)
    ∧ getAllTasks ⟨4, [⟨1, "A", false, 1, none⟩, ⟨2, "B", true, 2, some 2⟩,
        ⟨3, "C", false, 3, none⟩]⟩ =
      [⟨3, "C", false, 3, none⟩, ⟨1, "A", false, 1, none⟩,
       ⟨2, "B", true, 2, some 2⟩] := by
  constructor
  · intro s
    refine ⟨List.perm_insertionSort taskLe s.rows, ?_⟩
    exact (List.sorted_insertionSort taskLe s.rows).imp
      (fun hab => (taskLe_iff_taskOrdered _ _).mp hab)
  · decide

end TaskApp

namespace TaskApp

/-- Claim C3 evaluation: the POST boundary accepts the titles the claim
says it rejects. `insertTaskSchema` puts no length constraints on
`title`, so the handler answers 201 and persists both the empty title and
a 101-character title (the 100-character title is accepted as claimed).
The route's own doc comment states the title must be 1-100 characters. -/
theorem c3_boundary_accepts_invalid_titles :
    insertTaskParse [("title", .jstr "")] = some ""
    ∧ postHandler ⟨1, []⟩ [("title", .jstr "")] 0
        = (.created ⟨1, "", false, 0, none⟩, ⟨2, [⟨1, "", false, 0, none⟩]⟩)
    ∧ postHandler ⟨1, []⟩ [("title", .jstr (String.mk (List.replicate 101 'a')))] 0
        = (.created ⟨1, String.mk (List.replicate 101 'a'), false, 0, none⟩,
           ⟨2, [⟨1, String.mk (List.replicate 101 'a'), false, 0, none⟩]⟩)
    ∧ postHandler ⟨1, []⟩ [("title", .jstr (String.mk (List.replicate 100 'a')))] 0
        = (.created ⟨1, String.mk (List.replicate 100 'a'), false, 0, none⟩,
           ⟨2, [⟨1, String.mk (List.replicate 100 'a'), false, 0, none⟩]⟩) :=
  ⟨rfl, rfl, rfl, rfl⟩

/-- Claim C4: a PATCH whose numeric id matches no task answers 404 and
leaves the store exactly as it was: nothing is created or modified. -/
theorem c4_patch_not_found :
    ∀ (s : Store) (idStr : String) (id : Int) (c : Bool) (now : Nat),
      parseIntJS idStr = some id → (∀ t ∈ s.rows, t.id ≠ id) →
      patchHandler s idStr c now = (.notFound, s) := by
  intro s idStr id c now hp hno
  have hfil : s.rows.filter (fun r => r.id == id) = [] :=
    List.filter_eq_nil_iff.mpr (fun a ha => by simpa using hno a ha)
  have hmap : (s.rows.map fun r =>
      if r.id == id then
        applyUpdates r ⟨some c, some (if c then some now else none)⟩
      else r) = s.rows := by
    conv_rhs => rw [← List.map_id s.rows]
    refine List.map_congr_left ?_
    intro a ha
    have hne : (a.id == id) = false := by simpa using hno a ha
    simp [hne]
  have hup : updateTask s id ⟨some c, some (if c then some now else none)⟩
      = (none, s) := by
    unfold updateTask
    rw [hfil, hmap]
    simp
  simp [patchHandler, hp, hup]

/-- Concrete instantiation of the C4 theorem: PATCH id 9999 on a store
holding only task 1 answers 404 and the store is unchanged. -/
theorem c4_patch_not_found_witness :
    patchHandler ⟨2, [⟨1, "a", false, 0, none⟩]⟩ "9999" true 5
      = (.notFound, ⟨2, [⟨1, "a", false, 0, none⟩]⟩) :=
  c4_patch_not_found ⟨2, [⟨1, "a", false, 0, none⟩]⟩ "9999" 9999 true 5
    (by decide) (by decide)

/-- Claim C5: a PATCH on an existing task sets `completed = c` and
recomputes `completedAt` from the target value alone (`some now` when `c`
is true, `none` when `c` is false), whatever the prior state of the task
was: the 200 response body always carries these recomputed fields. -/
theorem c5_setCompletion_restamps :
    ∀ (s : Store) (idStr : String) (id : Int) (c : Bool) (now : Nat),
      parseIntJS idStr = some id → (∃ t ∈ s.rows, t.id = id) →
      (patchHandler s idStr c now).1.body.map Task.completed = some c
      ∧ (patchHandler s idStr c now).1.body.map Task.completedAt
          = some (if c then some now else none) := by
  intro s idStr id c now hp hex
  obtain ⟨t0, ht0, hid⟩ := hex
  have hmem : t0 ∈ s.rows.filter (fun r => r.id == id) := by
    simp [List.mem_filter, ht0, hid]
  cases hf : s.rows.filter (fun r => r.id == id) with
  | nil => rw [hf] at hmem; cases hmem
  | cons a as =>
    simp [patchHandler, hp, updateTask, hf, applyUpdates, PatchResp.body]

/-- Concrete instantiation of the C5 theorem: completing a task that is
already completed with `completedAt = some 1` re-stamps it to the current
time 5 instead of keeping the original timestamp. -/
theorem c5_setCompletion_restamps_witness :
    (patchHandler ⟨2, [⟨1, "a", true, 0, some 1⟩]⟩ "1" true 5).1.body.map
        Task.completedAt = some (some 5) :=
  (c5_setCompletion_restamps ⟨2, [⟨1, "a", true, 0, some 1⟩]⟩ "1" 1 true 5
    (by decide) ⟨⟨1, "a", true, 0, some 1⟩, by decide, by decide⟩).2

/-- Claim C6: `deleteTask` reports a boolean, true exactly when a row with
that id existed (and was removed), deleting twice yields false the second
time, and the deleted id no longer appears in `list()`. -/
theorem c6_delete_semantics :
    ∀ (s : Store) (id : Int),
      ((deleteTask s id).1 = true ↔ ∃ t ∈ s.rows, t.id = id)
      ∧ (deleteTask (deleteTask s id).2 id).1 = false
      ∧ ∀ t ∈ getAllTasks (deleteTask s id).2, t.id ≠ id := by
  intro s id
  refine ⟨?_, ?_, ?_⟩
  · simp [deleteTask, List.length_pos_iff_exists_mem, List.mem_filter]
  · simp [deleteTask, List.filter_filter]
  · intro t ht
    have hmem : t ∈ (deleteTask s id).2.rows := by
      simpa [getAllTasks] using ht
    simp [deleteTask, List.mem_filter] at hmem
    exact hmem.2

/-- Claim C7: creating a task with a fresh non-empty title returns a
fully populated pending task with an unseen id, and `list()` afterwards
holds exactly one task with that title, pending and without a completion
timestamp. -/
theorem c7_create_roundtrip :
    ∀ (s : Store) (x : String) (now : Nat),
      x ≠ "" → (∀ t ∈ s.rows, t.id < s.nextId) → (∀ t ∈ s.rows, t.title ≠ x) →
      (createTask s x now).1.title = x
      ∧ (createTask s x now).1.completed = false
      ∧ (createTask s x now).1.completedAt = none
      ∧ (∀ t ∈ s.rows, t.id ≠ (createTask s x now).1.id)
      ∧ ((getAllTasks (createTask s x now).2).countP fun t => t.title == x) = 1
      ∧ (∀ t ∈ getAllTasks (createTask s x now).2,
          t.title = x → t.completed = false ∧ t.completedAt = none) := by
  intro s x now hx hfresh htitle
  refine ⟨rfl, rfl, rfl, ?_, ?_, ?_⟩
  · intro t ht
    exact Int.ne_of_lt (hfresh t ht)
  · have hcnt : (s.rows.countP fun t => t.title == x) = 0 :=
      List.countP_eq_zero.mpr (fun a ha => by simpa using htitle a ha)
    simp [getAllTasks, (List.perm_insertionSort taskLe _).countP_eq,
      createTask, List.countP_append, hcnt]
  · intro t ht htx
    have hmem : t ∈ (createTask s x now).2.rows := by
      simpa [getAllTasks] using ht
    simp [createTask] at hmem
    rcases hmem with hmem | hmem
    · exact absurd htx (htitle t hmem)
    · subst hmem; exact ⟨rfl, rfl⟩

/-- Concrete instantiation of the C7 theorem on a store with one other
task. -/
theorem c7_create_roundtrip_witness :
    ((getAllTasks (createTask ⟨2, [⟨1, "other", false, 0, none⟩]⟩ "Buy milk" 3).2).countP
      fun t => t.title == "Buy milk") = 1 :=
  (c7_create_roundtrip ⟨2, [⟨1, "other", false, 0, none⟩]⟩ "Buy milk" 3
    (by decide) (by decide) (by decide)).2.2.2.2.1

/-- Claim C8: the DELETE adapter maps outcomes to statuses: non-numeric
id to 400 with the store untouched, a store delete returning false to
404, and a successful removal to 204 (the handler sends no body:
`res.status(204).send()`). -/
theorem c8_delete_adapter :
    ∀ (s : Store) (idStr : String),
      (parseIntJS idStr = none → deleteHandler s idStr = (.badRequest, s))
      ∧ ∀ id, parseIntJS idStr = some id →
          ((deleteTask s id).1 = false →
            deleteHandler s idStr = (.notFound, (deleteTask s id).2))
          ∧ ((deleteTask s id).1 = true →
            deleteHandler s idStr = (.noContent, (deleteTask s id).2)) := by
  intro s idStr
  constructor
  · intro h
    simp [deleteHandler, h]
  · intro id h
    constructor <;> intro hd <;> simp [deleteHandler, h, hd]

/-- Concrete instantiation of the C8 theorem: a non-numeric id answers
400 and leaves the store untouched. -/
theorem c8_delete_adapter_witness :
    deleteHandler ⟨2, [⟨1, "a", false, 0, none⟩]⟩ "abc"
      = (.badRequest, ⟨2, [⟨1, "a", false, 0, none⟩]⟩) :=
  (c8_delete_adapter ⟨2, [⟨1, "a", false, 0, none⟩]⟩ "abc").1 (by decide)

/-- Claim C9: the PATCH handler validates no body schema: its only 400 is
the id check; a body without `completed` flows through as the empty
update object, and any defined `completed` value is passed to the store
verbatim together with the recomputed `completedAt` (stamped when the
value is truthy, cleared otherwise). -/
theorem c9_patch_no_validation :
    ∀ (idStr : String) (body : Option JVal) (now : Nat),
      (patchHandlerRaw idStr body now = .badId ↔ parseIntJS idStr = none)
      ∧ ∀ id, parseIntJS idStr = some id →
          patchHandlerRaw idStr none now = .toStore id ⟨none, none⟩
          ∧ ∀ v, patchHandlerRaw idStr (some v) now
              = .toStore id ⟨some v, some (if truthy v then some now else none)⟩ := by
  intro idStr body now
  constructor
  · cases h : parseIntJS idStr <;> simp [patchHandlerRaw, h]
  · intro id h
    simp [patchHandlerRaw, h, buildPatchUpdates]

/-- Concrete instantiation of the C9 theorem: a body without `completed`
reaches the store as the empty update object. -/
theorem c9_patch_no_validation_witness :
    patchHandlerRaw "5" none 0 = .toStore 5 ⟨none, none⟩ :=
  ((c9_patch_no_validation "5" none 0).2 5 (by decide)).1

theorem parseIntJS_digit_led (idStr : String) (n : Nat) (d : Char) (rest : List Char)
    (hlist : idStr.toList = d :: rest) (hdig : d.isDigit = true)
    (hnox : ¬(d = '0' ∧ (rest.head? = some 'x' ∨ rest.head? = some 'X')))
    (hdec : decDigitsVal idStr = some n) :
    parseIntJS idStr = some (n : Int) := by
  have hws : isWhitespaceJS d = false := by
    by_contra hw
    rw [Bool.not_eq_false] at hw
    simp [isWhitespaceJS] at hw
    rcases hw with (((((h|h)|h)|h)|h)|h)|h <;> subst h <;> exact absurd hdig (by decide)
  have hm : d ≠ '-' := fun h => absurd hdig (by subst h; decide)
  have hpl : d ≠ '+' := fun h => absurd hdig (by subst h; decide)
  have htd : takeDigits 10 (d :: rest) 0 false = some n := by
    unfold decDigitsVal at hdec
    rw [hlist] at hdec
    exact hdec
  unfold parseIntJS
  rw [hlist]
  rw [List.dropWhile_cons]
  simp only [hws, Bool.false_eq_true, if_false]
  simp only [stripSign, if_neg hm, if_neg hpl]
  cases rest with
  | nil =>
    simp only [stripRadixTag]
    rw [htd]
    simp
  | cons c1 rest' =>
    have hcond : ¬(d = '0' ∧ (c1 = 'x' ∨ c1 = 'X')) := by
      simpa using hnox
    simp only [stripRadixTag, if_neg hcond]
    rw [htd]
    simp

/-- Claim C10 as amended: the PATCH and DELETE adapters reject a path id
with 400 exactly when `parseInt` yields NaN; and for an id string that
begins with decimal digits followed by non-digit characters, excluding
the strings that begin with the hexadecimal tag `0x`/`0X`, `parseInt`
yields the value of the maximal decimal-digit run, so the request is not
rejected as non-numeric and targets the task whose id equals that
numeric value. -/
theorem c10_parseInt_digit_led_ids :
    ∀ (s : Store) (idStr : String) (body : Option JVal) (now : Nat),
      ((patchHandlerRaw idStr body now = .badId ↔ parseIntJS idStr = none)
        ∧ ((deleteHandler s idStr).1 = .badRequest ↔ parseIntJS idStr = none))
      ∧ ∀ (n : Nat) (d : Char) (rest : List Char),
          idStr.toList = d :: rest → d.isDigit = true →
          ¬(d = '0' ∧ (rest.head? = some 'x' ∨ rest.head? = some 'X')) →
          decDigitsVal idStr = some n →
          parseIntJS idStr = some (n : Int)
          ∧ patchHandlerRaw idStr body now = .toStore (n : Int) (buildPatchUpdates body now)
          ∧ deleteHandler s idStr
              = (if (deleteTask s (n : Int)).1 then DeleteResp.noContent else .notFound,
                 (deleteTask s (n : Int)).2) := by
  intro s idStr body now
  constructor
  · constructor
    · cases h : parseIntJS idStr <;> simp [patchHandlerRaw, h]
    · cases h : parseIntJS idStr with
      | none => simp [deleteHandler, h]
      | some i => cases hdt : (deleteTask s i).1 <;> simp [deleteHandler, h, hdt]
  · intro n d rest hlist hdig hnox hdec
    have hpi := parseIntJS_digit_led idStr n d rest hlist hdig hnox hdec
    refine ⟨hpi, ?_, ?_⟩
    · simp [patchHandlerRaw, hpi]
    · cases hdt : (deleteTask s (n : Int)).1 <;> simp [deleteHandler, hpi, hdt]

/-- Concrete instantiation of the amended C10 theorem: `"12abc"` targets
the task with id 12. -/
theorem c10_parseInt_digit_led_ids_witness :
    parseIntJS "12abc" = some 12 :=
  ((c10_parseInt_digit_led_ids ⟨1, []⟩ "12abc" none 0).2 12 '1' ['2', 'a', 'b', 'c']
    (by decide) (by decide) (by decide) (by decide)).1

/-- Claim C10 counterexample: digit-led strings with the hexadecimal tag
refute both parts of the claim. `"0xff"` begins with the digit `0`
followed by non-digit characters, yet `parseInt` reads it as hexadecimal
255, so the request is treated as targeting id 255 and not the id 0
given by the numeric (decimal-digit) prefix: a DELETE for `"0xff"` on a
store holding a task with id 0 answers 404. And `"0xzz"` also begins
with the digit `0` followed by non-digit characters, yet `parseInt`
yields NaN on it, so the request is rejected as non-numeric with 400. -/
theorem c10_hex_counterexample :
    parseIntJS "0xff" = some 255
    ∧ decDigitsVal "0xff" = some 0
    ∧ patchHandlerRaw "0xff" (some (.jbool true)) 7
        = .toStore 255 ⟨some (.jbool true), some (some 7)⟩
    ∧ (deleteHandler ⟨3, [⟨0, "zero", false, 0, none⟩]⟩ "0xff").1 = .notFound
    ∧ (255 : Int) ≠ 0
    ∧ parseIntJS "0xzz" = none
    ∧ patchHandlerRaw "0xzz" (some (.jbool true)) 7 = .badId
    ∧ (deleteHandler ⟨3, [⟨0, "zero", false, 0, none⟩]⟩ "0xzz").1 = .badRequest :=
  ⟨by decide, by decide, by decide, by decide, by decide, by decide, by decide,
   by decide⟩

end TaskApp
